import Mathlib

/-!
Shallow embedding of `src/main.rs` of the `solana-balance` repository.

The program loads a YAML configuration (`TokenConfig`), queries an RPC
endpoint for each wallet's lamport balance and for each configured token's
accounts, sums the parsed `uiAmount`s per ticker, and prints a report.

Modelling decisions:
* `f64` amounts are modelled as `ℚ`; the concrete amounts of the spec
  (1.25, 3.75, 2.5) are dyadic rationals, exactly representable in `f64`,
  and the code only adds and divides by `10^9`, so `ℚ` is a faithful model
  for the stated claims.
* The RPC client (`solana_client::rpc_client::RpcClient`), `Pubkey::from_str`,
  `fs::read_to_string` and `serde_yaml::from_str` are external library calls;
  they are modelled as oracle fields of an environment record.  `Pubkey` is
  abstract (`Nat`).
* `anyhow::Error` is modelled by `RunError`, with one constructor per error
  source the program can hit (pubkey decode, RPC transport, file I/O, YAML
  parse).
* `std::collections::HashMap` is modelled as an association list whose
  `insert` removes any previous binding of the key and appends the new one
  (Rust `HashMap::insert` overwrites); lookup returns the first binding.
* Each fetching function is instrumented with a trace of issued RPC calls
  so that "no network query happened before the failure" is statable; the
  untraced functions are the first projection.
-/

/-- `struct TokenInfo { address, ticker }` from main.rs. -/
structure TokenInfo where
  address : String
  ticker : String
  deriving DecidableEq

/-- `struct TokenConfig { solana_rpc_url, wallets, tokens }` from main.rs. -/
structure TokenConfig where
  solana_rpc_url : String
  wallets : List String
  tokens : List TokenInfo
  deriving DecidableEq

/-- `struct TokenAmount { ui_amount: Option<f64> }` (serde rename `uiAmount`). -/
structure TokenAmount where
  ui_amount : Option ℚ
  deriving DecidableEq

/-- `struct AccountInfo { token_amount: TokenAmount }` (serde rename `tokenAmount`). -/
structure AccountInfo where
  token_amount : TokenAmount
  deriving DecidableEq

/-- `struct ParsedInfo { info: AccountInfo }`. -/
structure ParsedInfo where
  info : AccountInfo
  deriving DecidableEq

/-- `solana_account_decoder_client_types::UiAccountData`.  The `json` case
carries the result of `serde_json::from_value::<ParsedInfo>(parsed)` as an
`Option` (`none` models a payload that does not deserialize to the expected
shape); the other cases model the `Binary`/`LegacyBinary` variants the code
matches with `_ => None`. -/
inductive UiAccountData where
  | json (parsed : Option ParsedInfo)
  | binary
  | legacyBinary
  deriving DecidableEq

/-- The `account` field of an `RpcKeyedAccount`: only the `data` field is read. -/
structure UiAccount where
  data : UiAccountData
  deriving DecidableEq

/-- An `RpcKeyedAccount` as returned by `get_token_accounts_by_owner`. -/
structure KeyedAccount where
  pubkey : String
  account : UiAccount
  deriving DecidableEq

/-- The error sources wrapped into `anyhow::Error` by the program. -/
inductive RunError where
  | decodeError
  | rpcError
  | ioError
  | parseError
  deriving DecidableEq

/-- Abstract model of `solana_sdk::pubkey::Pubkey`. -/
abbrev Pubkey := Nat

/-- One network query issued through the `RpcClient`. -/
inductive RpcCall where
  | getBalance (p : Pubkey)
  | getTokenAccountsByOwner (owner mint : Pubkey)
  deriving DecidableEq

/-- Oracle environment for the external library calls: `Pubkey::from_str`
(`none` models a `ParsePubkeyError`, surfaced as a decode error),
`RpcClient::get_balance` (lamports as `u64`) and
`RpcClient::get_token_accounts_by_owner` filtered by mint. -/
structure RpcEnv where
  parsePubkey : String → Option Pubkey
  getBalance : Pubkey → Except RunError Nat
  getTokenAccountsByOwner : Pubkey → Pubkey → Except RunError (List KeyedAccount)

/-- Model of `HashMap::insert`: any previous binding of `k` is removed and
the new binding appended. -/
def hmInsert {α : Type} (m : List (String × α)) (k : String) (v : α) : List (String × α) :=
  m.filter (fun p => !(p.1 == k)) ++ [(k, v)]

/-- Model of `HashMap` lookup: first binding of the key. -/
def hmFind {α : Type} : List (String × α) → String → Option α
  | [], _ => none
  | (k', v) :: rest, k => if k' = k then some v else hmFind rest k

/-- The keys of a modelled `HashMap`. -/
def hmKeys {α : Type} (m : List (String × α)) : List String :=
  m.map Prod.fst

/-- The `filter_map` closure of `get_token_balances` (main.rs lines 92–101):
`Json` data is deserialized to `ParsedInfo` and its `uiAmount` extracted;
deserialization failure, a `null` `uiAmount`, and non-`Json` data all yield
`None`. -/
def accountUiAmount (a : KeyedAccount) : Option ℚ :=
  match a.account.data with
  | .json parsed => parsed.bind (fun pi => pi.info.token_amount.ui_amount)
  | _ => none

/-- `token_accounts.iter().filter_map(...).sum()` from main.rs lines 90–102. -/
def tokenAccountsTotal (accounts : List KeyedAccount) : ℚ :=
  (accounts.filterMap accountUiAmount).sum

/-- The body of `get_token_balances` for a single configured token
(main.rs lines 84–102): parse the mint address, query the token accounts,
sum the parsed amounts. -/
def tokenStep (env : RpcEnv) (wallet : Pubkey) (t : TokenInfo) :
    Except RunError ℚ × List RpcCall :=
  match env.parsePubkey t.address with
  | none => (.error .decodeError, [])
  | some mint =>
    match env.getTokenAccountsByOwner wallet mint with
    | .error e => (.error e, [RpcCall.getTokenAccountsByOwner wallet mint])
    | .ok accounts =>
      (.ok (tokenAccountsTotal accounts), [RpcCall.getTokenAccountsByOwner wallet mint])

/-- The `for token in tokens` loop of `get_token_balances`
(main.rs lines 83–106), instrumented with the trace of issued RPC calls. -/
def tokenLoop (env : RpcEnv) (wallet : Pubkey) :
    List TokenInfo → List (String × ℚ) →
    Except RunError (List (String × ℚ)) × List RpcCall
  | [], acc => (.ok acc, [])
  | t :: ts, acc =>
    match tokenStep env wallet t with
    | (.error e, tr) => (.error e, tr)
    | (.ok total, tr) =>
      let rest := tokenLoop env wallet ts (hmInsert acc t.ticker total)
      (rest.1, tr ++ rest.2)

/-- `fn get_token_balances` from main.rs (result value). -/
def get_token_balances (env : RpcEnv) (wallet : Pubkey) (tokens : List TokenInfo) :
    Except RunError (List (String × ℚ)) :=
  (tokenLoop env wallet tokens []).1

/-- `struct BalanceResult { sol_balance, token_balances }` from main.rs. -/
structure BalanceResult where
  sol_balance : ℚ
  token_balances : List (String × ℚ)
  deriving DecidableEq

/-- The body of `get_wallet_balances` for a single wallet string
(main.rs lines 58–70): parse the address, query the lamport balance,
compute the token balances, convert lamports to SOL by dividing by `10^9`. -/
def processWallet (env : RpcEnv) (cfg : TokenConfig) (w : String) :
    Except RunError BalanceResult × List RpcCall :=
  match env.parsePubkey w with
  | none => (.error .decodeError, [])
  | some wpk =>
    match env.getBalance wpk with
    | .error e => (.error e, [RpcCall.getBalance wpk])
    | .ok lamports =>
      let tb := tokenLoop env wpk cfg.tokens []
      match tb.1 with
      | .error e => (.error e, RpcCall.getBalance wpk :: tb.2)
      | .ok m =>
        (.ok ⟨(lamports : ℚ) / 1000000000, m⟩, RpcCall.getBalance wpk :: tb.2)

/-- The `for wallet_str in &config.wallets` loop of `get_wallet_balances`
(main.rs lines 57–71), instrumented with the RPC-call trace. -/
def walletLoop (env : RpcEnv) (cfg : TokenConfig) :
    List String → List (String × BalanceResult) →
    Except RunError (List (String × BalanceResult)) × List RpcCall
  | [], acc => (.ok acc, [])
  | w :: ws, acc =>
    match processWallet env cfg w with
    | (.error e, tr) => (.error e, tr)
    | (.ok br, tr) =>
      let rest := walletLoop env cfg ws (hmInsert acc w br)
      (rest.1, tr ++ rest.2)

/-- `fn get_wallet_balances` from main.rs (result value). -/
def get_wallet_balances (env : RpcEnv) (cfg : TokenConfig) :
    Except RunError (List (String × BalanceResult)) :=
  (walletLoop env cfg cfg.wallets []).1

/-- `fn default_rpc_url` from main.rs. -/
def default_rpc_url : String :=
  "https://api.mainnet-beta.solana.com"

/-- The field content of a syntactically valid `config.yaml` before serde
applies field defaults: `solana_rpc_url` may be absent. -/
structure RawConfig where
  solana_rpc_url : Option String
  wallets : List String
  tokens : List TokenInfo
  deriving DecidableEq

/-- Serde deserialization of `TokenConfig`: the
`#[serde(default = "default_rpc_url")]` attribute on `solana_rpc_url`
(main.rs line 12) substitutes `default_rpc_url()` when the field is absent. -/
def deserializeTokenConfig (r : RawConfig) : TokenConfig :=
  { solana_rpc_url := r.solana_rpc_url.getD default_rpc_url
    wallets := r.wallets
    tokens := r.tokens }

/-- One decimal digit character, used to model zero-padded fixed-precision
output. -/
def digitCh (n : Nat) : Char :=
  Nat.digitChar (n % 10)

/-- A natural number below `10000` rendered as exactly four decimal digits
(leading zeros kept). -/
def natPad4 (n : Nat) : String :=
  String.mk [digitCh (n / 1000), digitCh (n / 100), digitCh (n / 10), digitCh n]

/-- Model of Rust's `{:.4}` float formatting on the rational model: the value
is rounded to the nearest multiple of `1/10^4` (tie behaviour of `f64`
formatting is not depended on by any claim) and printed with a sign, the
integer part, a dot and exactly four fractional digits. -/
def fmt4 (q : ℚ) : String :=
  let n : ℤ := round (q * 10000)
  let sign : String := if n < 0 then "-" else ""
  sign ++ toString (n.natAbs / 10000) ++ "." ++ natPad4 (n.natAbs % 10000)

/-- The `println!("Wallet: {}", wallet)` line (main.rs line 120). -/
def walletLine (w : String) : String :=
  "Wallet: " ++ w

/-- The `println!("SOL Balance: {:.4} SOL", ...)` line (main.rs line 121). -/
def solLine (q : ℚ) : String :=
  "SOL Balance: " ++ fmt4 q ++ " SOL"

/-- The `println!("Token Balances:")` header line (main.rs line 123). -/
def tokenHeaderLine : String :=
  "Token Balances:"

/-- A `println!("  {}: {:.4}", token, amount)` line (main.rs line 125). -/
def tokenLine (tk : String) (q : ℚ) : String :=
  "  " ++ tk ++ ": " ++ fmt4 q

/-- The `println!("Detailed Wallet Balances:")` header (main.rs line 118). -/
def reportHeaderLine : String :=
  "Detailed Wallet Balances:"

/-- The stdout lines printed for one wallet entry by the report loop of
`main` (main.rs lines 120–127), ending with the empty `println!()` line. -/
def renderWallet (w : String) (br : BalanceResult) : List String :=
  walletLine w :: solLine br.sol_balance :: tokenHeaderLine ::
    (br.token_balances.map (fun p => tokenLine p.1 p.2) ++ [""])

/-- All stdout lines printed by `main` (main.rs lines 118–128). -/
def render (balances : List (String × BalanceResult)) : List String :=
  reportHeaderLine :: balances.flatMap (fun p => renderWallet p.1 p.2)

/-- Environment for `main`: the RPC oracles plus `fs::read_to_string("config.yaml")`
(`none` models an I/O error) and `serde_yaml::from_str` (`none` models a
YAML parse error). -/
structure MainEnv where
  rpc : RpcEnv
  configFile : Option String
  parseYaml : String → Option RawConfig

/-- `fn main` from main.rs (lines 112–130): load and parse the config, fetch
all balances, and on success produce the stdout lines; paired with the trace
of issued RPC calls. -/
def runMain (env : MainEnv) : Except RunError (List String) × List RpcCall :=
  match env.configFile with
  | none => (.error .ioError, [])
  | some content =>
    match env.parseYaml content with
    | none => (.error .parseError, [])
    | some raw =>
      let cfg := deserializeTokenConfig raw
      let r := walletLoop env.rpc cfg cfg.wallets []
      match r.1 with
      | .error e => (.error e, r.2)
      | .ok m => (.ok (render m), r.2)

/-! Concrete environments used to instantiate the claim theorems. -/

/-- A token account with ui amount `1.25`. -/
def acctW1a : KeyedAccount := ⟨"a1", ⟨.json (some ⟨⟨⟨some (5/4)⟩⟩⟩)⟩⟩

/-- A token account with ui amount `3.75`. -/
def acctW1b : KeyedAccount := ⟨"a2", ⟨.json (some ⟨⟨⟨some (15/4)⟩⟩⟩)⟩⟩

/-- A token descriptor whose mint has two accounts in `envW1`. -/
def tokW1a : TokenInfo := ⟨"MA", "AAA"⟩

/-- A token descriptor whose mint has no accounts in `envW1`. -/
def tokW1b : TokenInfo := ⟨"MB", "BBB"⟩

/-- Environment for the C1 witness. -/
def envW1 : RpcEnv where
  parsePubkey s := if s = "MA" then some 10 else if s = "MB" then some 11 else none
  getBalance _ := .ok 0
  getTokenAccountsByOwner _ mint := if mint = 10 then .ok [acctW1a, acctW1b] else .ok []

/-- A token account with binary (non-JSON) data. -/
def acctW2bin : KeyedAccount := ⟨"b1", ⟨.binary⟩⟩

/-- A token account with ui amount `2`. -/
def acctW2good : KeyedAccount := ⟨"b2", ⟨.json (some ⟨⟨⟨some 2⟩⟩⟩)⟩⟩

/-- Token descriptor for the C2 witness. -/
def tokW2 : TokenInfo := ⟨"MC", "CCC"⟩

/-- Environment for the C2 witness: the mint query returns one good and one
binary-encoded account. -/
def envW2 : RpcEnv where
  parsePubkey s := if s = "MC" then some 20 else none
  getBalance _ := .ok 0
  getTokenAccountsByOwner _ _ := .ok [acctW2good, acctW2bin]

/-- Configuration for the C3 witness: one wallet, no tokens. -/
def cfgW3 : TokenConfig := ⟨default_rpc_url, ["W3"], []⟩

/-- Environment for the C3 witness: lamport balance `2500000000`. -/
def envW3 : RpcEnv where
  parsePubkey s := if s = "W3" then some 30 else none
  getBalance _ := .ok 2500000000
  getTokenAccountsByOwner _ _ := .ok []

/-- Configuration for the C4 witness: a single malformed wallet address. -/
def cfgW4 : TokenConfig := ⟨default_rpc_url, ["BADW"], []⟩

/-- Environment for the C4 witness: every pubkey parse fails. -/
def envW4 : RpcEnv where
  parsePubkey _ := none
  getBalance _ := .ok 0
  getTokenAccountsByOwner _ _ := .ok []

/-- Raw configuration for the C5 witness. -/
def rawW5 : RawConfig := ⟨none, ["W5"], []⟩

/-- RPC environment for the C5 witness: the balance query fails with a
transport error. -/
def envW5rpc : RpcEnv where
  parsePubkey s := if s = "W5" then some 50 else none
  getBalance _ := .error .rpcError
  getTokenAccountsByOwner _ _ := .ok []

/-- Main environment for the C5 witness. -/
def menvW5 : MainEnv := ⟨envW5rpc, some "y", fun _ => some rawW5⟩

/-- Main environment for the C6 witness: the config file is missing. -/
def menvW6a : MainEnv := ⟨envW4, none, fun _ => none⟩

/-- Main environment for the C6 witness: the config file is malformed. -/
def menvW6b : MainEnv := ⟨envW4, some "x", fun _ => none⟩

/-- Raw configuration with the RPC URL absent. -/
def rawW7a : RawConfig := ⟨none, [], []⟩

/-- Raw configuration with an explicit RPC URL. -/
def rawW7b : RawConfig := ⟨some "http://example", [], []⟩

/-- Balance result for the C8 witness. -/
def brW8 : BalanceResult := ⟨5/2, [("DDD", 3)]⟩

/-- Per-wallet results for the C8 witness. -/
def balancesW8 : List (String × BalanceResult) := [("W8", brW8)]

/-- Token descriptor with an unparseable mint address in `envW9`. -/
def tokW9bad : TokenInfo := ⟨"BADMINT", "EEE"⟩

/-- Configuration for the C9 witness. -/
def cfgW9 : TokenConfig := ⟨default_rpc_url, ["W9"], [tokW9bad]⟩

/-- Environment for the C9 witness: the wallet parses, its mint does not. -/
def envW9 : RpcEnv where
  parsePubkey s := if s = "W9" then some 90 else none
  getBalance _ := .ok 7
  getTokenAccountsByOwner _ _ := .ok []

/-- First token descriptor with ticker `TKK` (sum `1` in `envW10`). -/
def tokW10a : TokenInfo := ⟨"M1", "TKK"⟩

/-- Second token descriptor with ticker `TKK` (sum `7` in `envW10`). -/
def tokW10b : TokenInfo := ⟨"M2", "TKK"⟩

/-- Account with ui amount `1` for mint `M1`. -/
def acctW10a : KeyedAccount := ⟨"c1", ⟨.json (some ⟨⟨⟨some 1⟩⟩⟩)⟩⟩

/-- Account with ui amount `7` for mint `M2`. -/
def acctW10b : KeyedAccount := ⟨"c2", ⟨.json (some ⟨⟨⟨some 7⟩⟩⟩)⟩⟩

/-- Configuration for the C10 witness: duplicate ticker and duplicate wallet. -/
def cfgW10 : TokenConfig := ⟨default_rpc_url, ["WX", "WX"], [tokW10a, tokW10b]⟩

/-- Environment for the C10 witness. -/
def envW10 : RpcEnv where
  parsePubkey s :=
    if s = "M1" then some 101
    else if s = "M2" then some 102
    else if s = "WX" then some 100
    else none
  getBalance _ := .ok 1000000000
  getTokenAccountsByOwner _ mint :=
    if mint = 101 then .ok [acctW10a]
    else if mint = 102 then .ok [acctW10b]
    else .ok []

theorem hmFind_hmInsert_self {α : Type} (m : List (String × α)) (k : String) (v : α) :
    hmFind (hmInsert m k v) k = some v := by
  induction m with
  | nil => simp [hmInsert, hmFind]
  | cons p rest ih =>
    obtain ⟨k', v'⟩ := p
    by_cases h : k' = k
    · subst h
      simpa [hmInsert, hmFind] using ih
    · simpa [hmInsert, hmFind, h] using ih

theorem hmFind_hmInsert_ne {α : Type} (m : List (String × α)) (k k' : String) (v : α)
    (h : k' ≠ k) : hmFind (hmInsert m k v) k' = hmFind m k' := by
  induction m with
  | nil => simp [hmInsert, hmFind, h, Ne.symm h]
  | cons p rest ih =>
    obtain ⟨a, b⟩ := p
    by_cases ha : a = k
    · subst ha
      have : a ≠ k' := Ne.symm h
      simpa [hmInsert, hmFind, this] using ih
    · by_cases ha' : a = k'
      · subst ha'
        simp [hmInsert, hmFind, ha]
      · simpa [hmInsert, hmFind, ha, ha'] using ih

theorem hmKeys_hmInsert_nodup {α : Type} (m : List (String × α)) (k : String) (v : α)
    (h : (hmKeys m).Nodup) : (hmKeys (hmInsert m k v)).Nodup := by
  have hsub : List.Sublist ((m.filter (fun p => !(p.1 == k))).map Prod.fst)
      (m.map Prod.fst) :=
    List.Sublist.map Prod.fst (List.filter_sublist m)
  have hnd : ((m.filter (fun p => !(p.1 == k))).map Prod.fst).Nodup :=
    List.Nodup.sublist hsub h
  have hnot : k ∉ (m.filter (fun p => !(p.1 == k))).map Prod.fst := by
    intro hk
    rcases List.mem_map.mp hk with ⟨p, hp, hfst⟩
    rcases List.mem_filter.mp hp with ⟨_, hpred⟩
    simp [hfst] at hpred
  have hk1 : hmKeys (hmInsert m k v) =
      (m.filter (fun p => !(p.1 == k))).map Prod.fst ++ [k] := by
    simp [hmKeys, hmInsert]
  rw [hk1]
  exact List.Nodup.append hnd (List.nodup_singleton k)
    (by simp only [List.disjoint_left]
        exact fun a ha hak => hnot ((List.mem_singleton.mp hak) ▸ ha))

theorem tokenLoop_find_of_not_mem (env : RpcEnv) (w : Pubkey) (k : String) :
    ∀ (ts : List TokenInfo) (acc m : List (String × ℚ)),
    (tokenLoop env w ts acc).1 = .ok m → k ∉ ts.map TokenInfo.ticker →
    hmFind m k = hmFind acc k := by
  intro ts
  induction ts with
  | nil =>
    intro acc m hok _
    simp [tokenLoop] at hok
    rw [hok]
  | cons t ts ih =>
    intro acc m hok hnot
    simp only [List.map_cons, List.mem_cons, not_or] at hnot
    cases hs : tokenStep env w t with
    | mk r tr =>
      cases r with
      | error e => simp [tokenLoop, hs] at hok
      | ok total =>
        simp only [tokenLoop, hs] at hok
        have := ih (hmInsert acc t.ticker total) m hok hnot.2
        rw [this, hmFind_hmInsert_ne _ _ _ _ hnot.1]

theorem tokenLoop_error_of_prefix (env : RpcEnv) (w : Pubkey) :
    ∀ (ts₁ : List TokenInfo) (t : TokenInfo) (ts₂ : List TokenInfo)
      (acc : List (String × ℚ)) (e : RunError),
    (∀ t' ∈ ts₁, ∃ q tr, tokenStep env w t' = (.ok q, tr)) →
    (tokenStep env w t).1 = .error e →
    (tokenLoop env w (ts₁ ++ t :: ts₂) acc).1 = .error e := by
  intro ts₁
  induction ts₁ with
  | nil =>
    intro t ts₂ acc e _ ht
    cases hs : tokenStep env w t with
    | mk r tr =>
      rw [hs] at ht
      simp only at ht
      subst ht
      simp [tokenLoop, hs]
  | cons t' ts₁ ih =>
    intro t ts₂ acc e hpre ht
    obtain ⟨q, tr, hq⟩ := hpre t' (List.mem_cons_self t' ts₁)
    simp only [List.cons_append, tokenLoop, hq]
    exact ih t ts₂ (hmInsert acc t'.ticker q) e
      (fun x hx => hpre x (List.mem_cons_of_mem t' hx)) ht

theorem tokenLoop_find_last (env : RpcEnv) (w : Pubkey) :
    ∀ (ts₁ : List TokenInfo) (t : TokenInfo) (ts₂ : List TokenInfo)
      (acc m : List (String × ℚ)) (q : ℚ) (tr : List RpcCall),
    (tokenLoop env w (ts₁ ++ t :: ts₂) acc).1 = .ok m →
    t.ticker ∉ ts₂.map TokenInfo.ticker →
    tokenStep env w t = (.ok q, tr) →
    hmFind m t.ticker = some q := by
  intro ts₁
  induction ts₁ with
  | nil =>
    intro t ts₂ acc m q tr hok hlast hstep
    simp only [List.nil_append, tokenLoop, hstep] at hok
    rw [tokenLoop_find_of_not_mem env w t.ticker ts₂ _ m hok hlast]
    exact hmFind_hmInsert_self _ _ _
  | cons t' ts₁ ih =>
    intro t ts₂ acc m q tr hok hlast hstep
    cases hs : tokenStep env w t' with
    | mk r tr' =>
      cases r with
      | error e => simp [tokenLoop, hs] at hok
      | ok total =>
        simp only [List.cons_append, tokenLoop, hs] at hok
        exact ih t ts₂ (hmInsert acc t'.ticker total) m q tr hok hlast hstep

theorem walletLoop_find_of_not_mem (env : RpcEnv) (cfg : TokenConfig) (k : String) :
    ∀ (ws : List String) (acc m : List (String × BalanceResult)),
    (walletLoop env cfg ws acc).1 = .ok m → k ∉ ws →
    hmFind m k = hmFind acc k := by
  intro ws
  induction ws with
  | nil =>
    intro acc m hok _
    simp [walletLoop] at hok
    rw [hok]
  | cons w ws ih =>
    intro acc m hok hnot
    simp only [List.mem_cons, not_or] at hnot
    cases hs : processWallet env cfg w with
    | mk r tr =>
      cases r with
      | error e => simp [walletLoop, hs] at hok
      | ok br =>
        simp only [walletLoop, hs] at hok
        have := ih (hmInsert acc w br) m hok hnot.2
        rw [this, hmFind_hmInsert_ne _ _ _ _ hnot.1]

theorem walletLoop_error_of_prefix (env : RpcEnv) (cfg : TokenConfig) :
    ∀ (ws₁ : List String) (w : String) (ws₂ : List String)
      (acc : List (String × BalanceResult)) (e : RunError),
    (∀ w' ∈ ws₁, ∃ br tr, processWallet env cfg w' = (.ok br, tr)) →
    (processWallet env cfg w).1 = .error e →
    (walletLoop env cfg (ws₁ ++ w :: ws₂) acc).1 = .error e := by
  intro ws₁
  induction ws₁ with
  | nil =>
    intro w ws₂ acc e _ hw
    cases hs : processWallet env cfg w with
    | mk r tr =>
      rw [hs] at hw
      simp only at hw
      subst hw
      simp [walletLoop, hs]
  | cons w' ws₁ ih =>
    intro w ws₂ acc e hpre hw
    obtain ⟨br, tr, hbr⟩ := hpre w' (List.mem_cons_self w' ws₁)
    simp only [List.cons_append, walletLoop, hbr]
    exact ih w ws₂ (hmInsert acc w' br) e
      (fun x hx => hpre x (List.mem_cons_of_mem w' hx)) hw

theorem walletLoop_find_mem (env : RpcEnv) (cfg : TokenConfig) :
    ∀ (ws : List String) (acc m : List (String × BalanceResult))
      (w : String) (br : BalanceResult),
    (walletLoop env cfg ws acc).1 = .ok m → w ∈ ws →
    (processWallet env cfg w).1 = .ok br →
    hmFind m w = some br := by
  intro ws
  induction ws with
  | nil =>
    intro acc m w br _ hmem _
    exact absurd hmem (List.not_mem_nil w)
  | cons w' ws ih =>
    intro acc m w br hok hmem hbr
    cases hs : processWallet env cfg w' with
    | mk r tr =>
      cases r with
      | error e => simp [walletLoop, hs] at hok
      | ok br' =>
        simp only [walletLoop, hs] at hok
        by_cases hw : w ∈ ws
        · exact ih (hmInsert acc w' br') m w br hok hw hbr
        · have hww' : w = w' := by
            rcases List.mem_cons.mp hmem with h | h
            · exact h
            · exact absurd h hw
          subst hww'
          have hbr' : br' = br := by
            rw [hs] at hbr
            simpa using hbr
          subst hbr'
          rw [walletLoop_find_of_not_mem env cfg w ws _ m hok hw]
          exact hmFind_hmInsert_self _ _ _

theorem walletLoop_keys_nodup (env : RpcEnv) (cfg : TokenConfig) :
    ∀ (ws : List String) (acc m : List (String × BalanceResult)),
    (walletLoop env cfg ws acc).1 = .ok m → (hmKeys acc).Nodup →
    (hmKeys m).Nodup := by
  intro ws
  induction ws with
  | nil =>
    intro acc m hok hnd
    simp [walletLoop] at hok
    rw [← hok]
    exact hnd
  | cons w ws ih =>
    intro acc m hok hnd
    cases hs : processWallet env cfg w with
    | mk r tr =>
      cases r with
      | error e => simp [walletLoop, hs] at hok
      | ok br =>
        simp only [walletLoop, hs] at hok
        exact ih (hmInsert acc w br) m hok (hmKeys_hmInsert_nodup acc w br hnd)


/-- C1: For every wallet pubkey and every configured token descriptor (tickers
pairwise distinct), the balance `get_token_balances` reports under that
descriptor's ticker equals the sum of the successfully parsed ui amounts of
the accounts returned for that wallet and mint; with zero matching accounts
the ticker is still bound in the mapping, to exactly 0. -/
theorem C1_token_sum_per_ticker (env : RpcEnv) (w : Pubkey) (tokens : List TokenInfo)
    (t : TokenInfo) (mint : Pubkey) (accs : List KeyedAccount) (m : List (String × ℚ))
    (hnodup : (tokens.map TokenInfo.ticker).Nodup)
    (hmem : t ∈ tokens)
    (hparse : env.parsePubkey t.address = some mint)
    (haccs : env.getTokenAccountsByOwner w mint = .ok accs)
    (hok : get_token_balances env w tokens = .ok m) :
    hmFind m t.ticker = some ((accs.filterMap accountUiAmount).sum) ∧
    (accs = [] → hmFind m t.ticker = some 0) := by
  obtain ⟨ts₁, ts₂, rfl⟩ := List.append_of_mem hmem
  have hmap : ((ts₁ ++ t :: ts₂).map TokenInfo.ticker) =
      ts₁.map TokenInfo.ticker ++ t.ticker :: ts₂.map TokenInfo.ticker := by simp
  rw [hmap] at hnodup
  have h2 := (List.nodup_append.mp hnodup).2.1
  have hlast := (List.nodup_cons.mp h2).1
  have hstep : tokenStep env w t =
      (.ok (tokenAccountsTotal accs), [RpcCall.getTokenAccountsByOwner w mint]) := by
    simp [tokenStep, hparse, haccs]
  have hok' : (tokenLoop env w (ts₁ ++ t :: ts₂) []).1 = .ok m := hok
  have hfind := tokenLoop_find_last env w ts₁ t ts₂ [] m _ _ hok' hlast hstep
  refine ⟨hfind, ?_⟩
  intro h
  subst h
  simpa [tokenAccountsTotal] using hfind

/-- C1 witness: in `envW1`, ticker `AAA` has two accounts with ui amounts
`1.25` and `3.75` (sum `5`), and ticker `BBB` has zero accounts yet is bound
to `0`. -/
theorem C1_token_sum_per_ticker_witness :
    hmFind [("AAA", (5 : ℚ)), ("BBB", 0)] "AAA" =
      some (([acctW1a, acctW1b].filterMap accountUiAmount).sum) ∧
    ([acctW1a, acctW1b].filterMap accountUiAmount).sum = 5 ∧
    hmFind [("AAA", (5 : ℚ)), ("BBB", 0)] "BBB" = some 0 := by
  have hok : get_token_balances envW1 1 [tokW1a, tokW1b] =
      .ok [("AAA", (5 : ℚ)), ("BBB", 0)] := by
    simp +decide [get_token_balances, tokenLoop, tokenStep, hmInsert, tokenAccountsTotal,
      accountUiAmount, envW1, tokW1a, tokW1b, acctW1a, acctW1b]
    norm_num
  have h1 := C1_token_sum_per_ticker envW1 1 [tokW1a, tokW1b] tokW1a 10
    [acctW1a, acctW1b] [("AAA", (5 : ℚ)), ("BBB", 0)]
    (by decide) (by decide) (by decide) (by simp +decide [envW1]) hok
  have h2 := C1_token_sum_per_ticker envW1 1 [tokW1a, tokW1b] tokW1b 11
    [] [("AAA", (5 : ℚ)), ("BBB", 0)]
    (by decide) (by decide) (by decide) (by simp +decide [envW1]) hok
  refine ⟨h1.1, ?_, h2.2 rfl⟩
  simp [accountUiAmount, acctW1a, acctW1b, List.filterMap_cons]
  norm_num

/-- C2: a returned account whose data is not parsed JSON, or whose parsed
payload does not deserialize to the expected shape, or whose `uiAmount` is
null, contributes nothing to the ticker's sum, and the token step still
succeeds with no error. -/
theorem C2_silent_skip (env : RpcEnv) (w : Pubkey) (t : TokenInfo) (mint : Pubkey)
    (a : KeyedAccount) (l₁ l₂ : List KeyedAccount)
    (hbad : a.account.data = .binary ∨ a.account.data = .legacyBinary ∨
      a.account.data = UiAccountData.json none ∨
      ∃ pi, a.account.data = .json (some pi) ∧ pi.info.token_amount.ui_amount = none)
    (hparse : env.parsePubkey t.address = some mint)
    (haccs : env.getTokenAccountsByOwner w mint = .ok (l₁ ++ a :: l₂)) :
    accountUiAmount a = none ∧
    tokenAccountsTotal (l₁ ++ a :: l₂) = tokenAccountsTotal (l₁ ++ l₂) ∧
    tokenStep env w t = (.ok (tokenAccountsTotal (l₁ ++ l₂)),
      [RpcCall.getTokenAccountsByOwner w mint]) := by
  have hnone : accountUiAmount a = none := by
    rcases hbad with h | h | h | ⟨pi, h, hui⟩
    · simp [accountUiAmount, h]
    · simp [accountUiAmount, h]
    · simp [accountUiAmount, h]
    · simp [accountUiAmount, h, hui]
  have htot : tokenAccountsTotal (l₁ ++ a :: l₂) = tokenAccountsTotal (l₁ ++ l₂) := by
    simp [tokenAccountsTotal, List.filterMap_append, List.filterMap_cons, hnone]
  exact ⟨hnone, htot, by simp [tokenStep, hparse, haccs, htot]⟩

/-- C2 witness: in `envW2` the binary-encoded account is skipped, the sum
equals that of the remaining account, and the token step succeeds. -/
theorem C2_silent_skip_witness :
    accountUiAmount acctW2bin = none ∧
    tokenAccountsTotal [acctW2good, acctW2bin] = tokenAccountsTotal [acctW2good] ∧
    tokenStep envW2 1 tokW2 = (.ok (tokenAccountsTotal [acctW2good]),
      [RpcCall.getTokenAccountsByOwner 1 20]) :=
  C2_silent_skip envW2 1 tokW2 20 acctW2bin [acctW2good] [] (Or.inl rfl)
    (by norm_num [envW2, tokW2]) (by norm_num [envW2])

/-- C3: the native balance reported for a wallet equals its lamport balance
divided by `10^9`. -/
theorem C3_native_balance_conversion (env : RpcEnv) (cfg : TokenConfig) (w : String)
    (p : Pubkey) (lamports : Nat) (br : BalanceResult) (tr : List RpcCall)
    (hparse : env.parsePubkey w = some p)
    (hbal : env.getBalance p = .ok lamports)
    (hok : processWallet env cfg w = (.ok br, tr)) :
    br.sol_balance = (lamports : ℚ) / 1000000000 := by
  cases htl : (tokenLoop env p cfg.tokens []).1 with
  | error e =>
    simp [processWallet, hparse, hbal, htl] at hok
  | ok m =>
    simp [processWallet, hparse, hbal, htl] at hok
    rw [← hok.1]

/-- C3 witness: a lamport balance of `2500000000` is reported as
`2500000000 / 10^9 = 5/2 = 2.5`. -/
theorem C3_native_balance_conversion_witness :
    ((⟨(5 : ℚ) / 2, []⟩ : BalanceResult).sol_balance = (2500000000 : ℚ) / 1000000000) ∧
    (2500000000 : ℚ) / 1000000000 = 5 / 2 := by
  constructor
  · refine C3_native_balance_conversion envW3 cfgW3 "W3" 30 2500000000
      ⟨(5 : ℚ) / 2, []⟩ [RpcCall.getBalance 30] (by norm_num [envW3]) (by norm_num [envW3]) ?_
    simp +decide [processWallet, envW3, cfgW3, tokenLoop]
    norm_num
  · norm_num

/-- C4: a wallet address string that fails to parse as a pubkey aborts the
entire run with a decode error (given that every earlier wallet processed
successfully), and no RPC call at all is issued for that wallet (its trace
is empty). -/
theorem C4_bad_wallet_aborts (env : RpcEnv) (cfg : TokenConfig)
    (ws₁ : List String) (w : String) (ws₂ : List String)
    (hwallets : cfg.wallets = ws₁ ++ w :: ws₂)
    (hpre : ∀ w' ∈ ws₁, ∃ br tr, processWallet env cfg w' = (.ok br, tr))
    (hbad : env.parsePubkey w = none) :
    get_wallet_balances env cfg = .error .decodeError ∧
    processWallet env cfg w = (.error .decodeError, []) := by
  have hw : (processWallet env cfg w).1 = .error .decodeError := by
    simp [processWallet, hbad]
  constructor
  · have h := walletLoop_error_of_prefix env cfg ws₁ w ws₂ [] .decodeError hpre hw
    simp only [get_wallet_balances, hwallets]
    exact h
  · simp [processWallet, hbad]

/-- C4 witness: in `envW4` the single wallet address fails to parse, the run
aborts with a decode error, and that wallet's RPC trace is empty. -/
theorem C4_bad_wallet_aborts_witness :
    get_wallet_balances envW4 cfgW4 = .error .decodeError ∧
    processWallet envW4 cfgW4 "BADW" = (.error .decodeError, []) :=
  C4_bad_wallet_aborts envW4 cfgW4 [] "BADW" [] rfl
    (fun w' h => absurd h (List.not_mem_nil w')) rfl

/-- C5: a transport/RPC error on the native-balance query or on a
token-accounts-by-owner query propagates to the top level: `main` fails with
the RPC error and produces no per-wallet output. -/
theorem C5_rpc_error_propagates (menv : MainEnv) (content : String) (raw : RawConfig)
    (ws₁ : List String) (w : String) (ws₂ : List String) (p : Pubkey)
    (hfile : menv.configFile = some content)
    (hyaml : menv.parseYaml content = some raw)
    (hwallets : (deserializeTokenConfig raw).wallets = ws₁ ++ w :: ws₂)
    (hpre : ∀ w' ∈ ws₁, ∃ br tr,
      processWallet menv.rpc (deserializeTokenConfig raw) w' = (.ok br, tr))
    (hparse : menv.rpc.parsePubkey w = some p)
    (hfail : menv.rpc.getBalance p = .error .rpcError ∨
      (∃ lams, menv.rpc.getBalance p = .ok lams ∧
        (tokenLoop menv.rpc p (deserializeTokenConfig raw).tokens []).1 = .error .rpcError)) :
    (runMain menv).1 = .error .rpcError ∧
    get_wallet_balances menv.rpc (deserializeTokenConfig raw) = .error .rpcError := by
  have hw : (processWallet menv.rpc (deserializeTokenConfig raw) w).1 = .error .rpcError := by
    rcases hfail with hb | ⟨lams, hb, htl⟩
    · simp [processWallet, hparse, hb]
    · simp [processWallet, hparse, hb, htl]
  have hloop := walletLoop_error_of_prefix menv.rpc (deserializeTokenConfig raw)
    ws₁ w ws₂ [] .rpcError hpre hw
  have hgwb : get_wallet_balances menv.rpc (deserializeTokenConfig raw) = .error .rpcError := by
    simp only [get_wallet_balances, hwallets]
    exact hloop
  have hr : (walletLoop menv.rpc (deserializeTokenConfig raw)
      (deserializeTokenConfig raw).wallets []).1 = .error .rpcError := hgwb
  refine ⟨?_, hgwb⟩
  simp [runMain, hfile, hyaml, hr]

/-- C5 witness: in `menvW5` the native-balance query fails with an RPC error
and the whole run fails with it. -/
theorem C5_rpc_error_propagates_witness :
    (runMain menvW5).1 = .error .rpcError ∧
    get_wallet_balances menvW5.rpc (deserializeTokenConfig rawW5) = .error .rpcError :=
  C5_rpc_error_propagates menvW5 "y" rawW5 [] "W5" [] 50 rfl rfl rfl
    (fun w' h => absurd h (List.not_mem_nil w')) (by decide) (Or.inl rfl)

/-- C6: a missing config file aborts the run with an I/O error, a malformed
one with a parse error, in both cases with an empty RPC trace (no network
activity) and no results. -/
theorem C6_config_errors (e₁ e₂ : MainEnv) (c : String)
    (h1 : e₁.configFile = none)
    (h2 : e₂.configFile = some c)
    (h3 : e₂.parseYaml c = none) :
    runMain e₁ = (.error .ioError, []) ∧ runMain e₂ = (.error .parseError, []) := by
  constructor
  · simp [runMain, h1]
  · simp [runMain, h2, h3]

/-- C6 witness: concrete environments with a missing and a malformed config
file. -/
theorem C6_config_errors_witness :
    runMain menvW6a = (.error .ioError, []) ∧ runMain menvW6b = (.error .parseError, []) :=
  C6_config_errors menvW6a menvW6b "x" rfl rfl rfl

/-- C7: when the raw config omits `solana_rpc_url`, deserialization fills in
the public mainnet default; when the field is present its value is used
unchanged. -/
theorem C7_default_rpc_url (r₁ r₂ : RawConfig) (u : String)
    (h1 : r₁.solana_rpc_url = none)
    (h2 : r₂.solana_rpc_url = some u) :
    (deserializeTokenConfig r₁).solana_rpc_url = default_rpc_url ∧
    default_rpc_url = "https://api.mainnet-beta.solana.com" ∧
    (deserializeTokenConfig r₂).solana_rpc_url = u := by
  refine ⟨?_, rfl, ?_⟩
  · simp [deserializeTokenConfig, h1]
  · simp [deserializeTokenConfig, h2]

/-- C7 witness: a raw config without the URL field gets the default, one with
an explicit URL keeps it. -/
theorem C7_default_rpc_url_witness :
    (deserializeTokenConfig rawW7a).solana_rpc_url = default_rpc_url ∧
    default_rpc_url = "https://api.mainnet-beta.solana.com" ∧
    (deserializeTokenConfig rawW7b).solana_rpc_url = "http://example" :=
  C7_default_rpc_url rawW7a rawW7b "http://example" rfl rfl

theorem natPad4_length (n : Nat) : (natPad4 n).length = 4 := rfl

/-- C8: for every per-wallet entry, the report printed to stdout contains the
wallet-address line, the native-balance line and one line per ticker balance,
with every balance rendered by `fmt4`, which always produces an integer part,
a dot, and exactly four fractional digits; the reporter is a pure function of
the collected results. -/
theorem C8_report_lines (balances : List (String × BalanceResult)) (w : String)
    (br : BalanceResult) (hmem : (w, br) ∈ balances) :
    walletLine w ∈ render balances ∧
    solLine br.sol_balance ∈ render balances ∧
    (∀ tk amt, (tk, amt) ∈ br.token_balances → tokenLine tk amt ∈ render balances) ∧
    (∀ q : ℚ, ∃ ip : String, ∃ frac : Nat, frac < 10000 ∧
      fmt4 q = ip ++ "." ++ natPad4 frac ∧ (natPad4 frac).length = 4) := by
  have hsub : ∀ s, s ∈ renderWallet w br → s ∈ render balances := by
    intro s hs
    exact List.mem_cons_of_mem _ (List.mem_flatMap.mpr ⟨(w, br), hmem, hs⟩)
  refine ⟨hsub _ (List.mem_cons_self _ _), ?_, ?_, ?_⟩
  · exact hsub _ (List.mem_cons_of_mem _ (List.mem_cons_self _ _))
  · intro tk amt h
    have hmap : tokenLine tk amt ∈ br.token_balances.map (fun p => tokenLine p.1 p.2) :=
      List.mem_map.mpr ⟨(tk, amt), h, rfl⟩
    exact hsub _ (List.mem_cons_of_mem _ (List.mem_cons_of_mem _
      (List.mem_cons_of_mem _ (List.mem_append_left _ hmap))))
  · intro q
    exact ⟨(if round (q * 10000) < (0 : ℤ) then "-" else "") ++
        toString ((round (q * 10000)).natAbs / 10000),
      (round (q * 10000)).natAbs % 10000,
      Nat.mod_lt _ (by norm_num), rfl, rfl⟩

/-- C8 witness: the report for `balancesW8` contains the wallet line, the SOL
line and the ticker line of its single entry. -/
theorem C8_report_lines_witness :
    walletLine "W8" ∈ render balancesW8 ∧
    solLine brW8.sol_balance ∈ render balancesW8 ∧
    (∀ tk amt, (tk, amt) ∈ brW8.token_balances → tokenLine tk amt ∈ render balancesW8) ∧
    (∀ q : ℚ, ∃ ip : String, ∃ frac : Nat, frac < 10000 ∧
      fmt4 q = ip ++ "." ++ natPad4 frac ∧ (natPad4 frac).length = 4) :=
  C8_report_lines balancesW8 "W8" brW8 (show ("W8", brW8) ∈ balancesW8 from
    List.mem_cons_self _ _)

/-- C9: a configured token whose mint address string fails to parse aborts
the entire run with a decode error while processing the first wallet, so no
per-wallet result is produced at all. -/
theorem C9_bad_mint_aborts (env : RpcEnv) (cfg : TokenConfig) (w : String)
    (ws : List String) (p : Pubkey) (lams : Nat)
    (ts₁ : List TokenInfo) (t : TokenInfo) (ts₂ : List TokenInfo)
    (hwallets : cfg.wallets = w :: ws)
    (hparse : env.parsePubkey w = some p)
    (hbal : env.getBalance p = .ok lams)
    (htokens : cfg.tokens = ts₁ ++ t :: ts₂)
    (hpre : ∀ t' ∈ ts₁, ∃ q tr, tokenStep env p t' = (.ok q, tr))
    (hbad : env.parsePubkey t.address = none) :
    get_wallet_balances env cfg = .error .decodeError := by
  have hstep : (tokenStep env p t).1 = .error .decodeError := by
    simp [tokenStep, hbad]
  have htl : (tokenLoop env p (ts₁ ++ t :: ts₂) []).1 = .error .decodeError :=
    tokenLoop_error_of_prefix env p ts₁ t ts₂ [] .decodeError hpre hstep
  have hw : (processWallet env cfg w).1 = .error .decodeError := by
    simp [processWallet, hparse, hbal, htokens, htl]
  have h := walletLoop_error_of_prefix env cfg [] w ws [] .decodeError
    (fun x hx => absurd hx (List.not_mem_nil x)) hw
  simp only [get_wallet_balances, hwallets]
  exact h

/-- C9 witness: in `envW9` the single token's mint address does not parse and
the whole run fails with a decode error. -/
theorem C9_bad_mint_aborts_witness :
    get_wallet_balances envW9 cfgW9 = .error .decodeError :=
  C9_bad_mint_aborts envW9 cfgW9 "W9" [] 90 7 [] tokW9bad [] rfl (by decide) rfl rfl
    (fun x hx => absurd hx (List.not_mem_nil x)) (by decide)

/-- C10: when two descriptors share a ticker, the reported balance under that
ticker is the one computed for the descriptor occurring last (no later
descriptor bears the ticker); a wallet listed twice yields a single result
entry (result keys are duplicate-free) whose value is the per-wallet result
of processing that wallet — identical at every occurrence, hence that of the
last one. -/
theorem C10_duplicates_last_wins (env : RpcEnv) (w : Pubkey)
    (ts₁ : List TokenInfo) (t : TokenInfo) (ts₂ : List TokenInfo)
    (m : List (String × ℚ)) (q : ℚ) (tr : List RpcCall)
    (cfg : TokenConfig) (M : List (String × BalanceResult)) (ws : String)
    (br : BalanceResult)
    (hlast : t.ticker ∉ ts₂.map TokenInfo.ticker)
    (hok : get_token_balances env w (ts₁ ++ t :: ts₂) = .ok m)
    (hstep : tokenStep env w t = (.ok q, tr))
    (hW : get_wallet_balances env cfg = .ok M)
    (hmemw : ws ∈ cfg.wallets)
    (hbr : (processWallet env cfg ws).1 = .ok br) :
    hmFind m t.ticker = some q ∧ hmFind M ws = some br ∧ (hmKeys M).Nodup := by
  have hok' : (tokenLoop env w (ts₁ ++ t :: ts₂) []).1 = .ok m := hok
  have hW' : (walletLoop env cfg cfg.wallets []).1 = .ok M := hW
  exact ⟨tokenLoop_find_last env w ts₁ t ts₂ [] m q tr hok' hlast hstep,
    walletLoop_find_mem env cfg cfg.wallets [] M ws br hW' hmemw hbr,
    walletLoop_keys_nodup env cfg cfg.wallets [] M hW' (by simp [hmKeys])⟩

/-- C10 witness: `cfgW10` lists ticker `TKK` twice (sums 1 then 7) and wallet
`WX` twice; the report binds `TKK` to 7 (the last descriptor) and has a
single entry for `WX`. -/
theorem C10_duplicates_last_wins_witness :
    hmFind [("TKK", (7 : ℚ))] "TKK" = some 7 ∧
    hmFind [("WX", (⟨1, [("TKK", (7 : ℚ))]⟩ : BalanceResult))] "WX" =
      some ⟨1, [("TKK", 7)]⟩ ∧
    (hmKeys [("WX", (⟨1, [("TKK", (7 : ℚ))]⟩ : BalanceResult))]).Nodup := by
  refine C10_duplicates_last_wins envW10 100 [tokW10a] tokW10b []
    [("TKK", (7 : ℚ))] 7 [RpcCall.getTokenAccountsByOwner 100 102] cfgW10
    [("WX", ⟨1, [("TKK", 7)]⟩)] "WX" ⟨1, [("TKK", 7)]⟩
    (by decide) ?_ ?_ ?_ (by decide) ?_
  · simp +decide [get_token_balances, tokenLoop, tokenStep, hmInsert, tokenAccountsTotal,
      accountUiAmount, envW10, tokW10a, tokW10b, acctW10a, acctW10b]
  · simp +decide [tokenStep, tokenAccountsTotal, accountUiAmount, envW10, tokW10b, acctW10b]
  · simp +decide [get_wallet_balances, walletLoop, processWallet, tokenLoop, tokenStep,
      hmInsert, tokenAccountsTotal, accountUiAmount, envW10, cfgW10, tokW10a, tokW10b,
      acctW10a, acctW10b]
  · simp +decide [processWallet, tokenLoop, tokenStep, hmInsert, tokenAccountsTotal,
      accountUiAmount, envW10, cfgW10, tokW10a, tokW10b, acctW10a, acctW10b]
